import Mathlib

/-!
Shallow embedding of the KlipperIWC status-history core: the SQLAlchemy-backed
history store (`klipperiwc/repositories/status_history.py` and
`klipperiwc/db/models.py`), the dashboard metrics aggregator
(`klipperiwc/services/dashboard_metrics.py`), the websocket broadcaster
(`klipperiwc/websocket/gateway.py`) and the retention cleanup loop
(`klipperiwc/app.py`).

Timestamps are embedded as integers (epoch seconds, all UTC); float columns
(temperatures, progress) are embedded as rationals.  Database tables are lists
of row structures; SQL queries are translated into list operations on them.
-/

namespace KlipperIWC

/-- Row of the `status_history` table (`db/models.py`, class `StatusHistory`,
including the `created_at` column of `TimestampMixin`). -/
structure StatusHistoryRow where
  id : Nat
  state : String
  message : Option String
  uptime_seconds : Option Int
  recorded_at : Int
  active_job_id : Option String
  active_job_name : Option String
  active_job_progress : Option Rat
  active_job_status : Option String
  active_job_started_at : Option Int
  active_job_estimated_completion : Option Int
  created_at : Int
deriving DecidableEq, Repr

/-- Row of the `temperature_history` table (`db/models.py`, class
`TemperatureHistory`). -/
structure TemperatureHistoryRow where
  id : Nat
  status_id : Nat
  component : String
  actual : Rat
  target : Option Rat
  timestamp : Int
  created_at : Int
deriving DecidableEq, Repr

/-- Row of the `job_history` table (`db/models.py`, class `JobHistory`). -/
structure JobHistoryRow where
  id : Nat
  status_id : Nat
  job_identifier : String
  name : String
  progress : Rat
  status_value : String
  started_at : Option Int
  estimated_completion : Option Int
  is_active : Bool
  created_at : Int
deriving DecidableEq, Repr

/-- The database state: the three tables of the status-history core. -/
structure Store where
  snapshots : List StatusHistoryRow
  temps : List TemperatureHistoryRow
  jobs : List JobHistoryRow
deriving DecidableEq, Repr

/-- The empty database. -/
def emptyStore : Store := { snapshots := [], temps := [], jobs := [] }

/-- Input model `TemperatureReading` (`models/status.py`). -/
structure TemperatureReading where
  component : String
  actual : Rat
  target : Option Rat
  timestamp : Int
deriving DecidableEq, Repr

/-- Input model `JobSummary` (`models/status.py`). -/
structure JobSummary where
  id : String
  name : String
  progress : Rat
  status : String
  started_at : Option Int
  estimated_completion : Option Int
deriving DecidableEq, Repr

/-- Input model `PrinterStatus` (`models/status.py`). -/
structure PrinterStatus where
  state : String
  message : Option String
  uptime_seconds : Option Int
  active_job : Option JobSummary
  queued_jobs : List JobSummary
  temperatures : List TemperatureReading
deriving DecidableEq, Repr

/-! ### Ordering used by the listing and "latest" queries

`ORDER BY recorded_at DESC, id DESC` — the row sorting earlier is the row the
query emits first. -/

/-- `a` is emitted no later than `b` under
`ORDER BY recorded_at DESC, id DESC`. -/
def snapLE (a b : StatusHistoryRow) : Prop :=
  b.recorded_at < a.recorded_at ∨ (a.recorded_at = b.recorded_at ∧ b.id ≤ a.id)

/-- Strict version of `snapLE`: `a` is emitted strictly before `b`. -/
def snapLT (a b : StatusHistoryRow) : Prop :=
  b.recorded_at < a.recorded_at ∨ (a.recorded_at = b.recorded_at ∧ b.id < a.id)

instance : DecidableRel snapLE := fun a b => by unfold snapLE; infer_instance

instance : DecidableRel snapLT := fun a b => by unfold snapLT; infer_instance

instance : IsTotal StatusHistoryRow snapLE :=
  ⟨by intro a b; unfold snapLE; omega⟩

instance : IsTrans StatusHistoryRow snapLE :=
  ⟨by intro a b c hab hbc; unfold snapLE at *; omega⟩

/-! ### Repository helpers (`repositories/status_history.py`) -/

/-- Next autoincrement id for the `status_history` table. -/
def nextSnapshotId (s : Store) : Nat :=
  (s.snapshots.map (·.id)).foldr max 0 + 1

/-- Next autoincrement id for the `temperature_history` table. -/
def nextTempId (s : Store) : Nat :=
  (s.temps.map (·.id)).foldr max 0 + 1

/-- Next autoincrement id for the `job_history` table. -/
def nextJobId (s : Store) : Nat :=
  (s.jobs.map (·.id)).foldr max 0 + 1

/-- `_build_temperature_entities` — one `TemperatureHistory` row per reading.
Ids are assigned sequentially from `base` (flush order), `created_at` is the
server time of the flush. -/
def _build_temperature_entities (readings : List TemperatureReading)
    (sid base : Nat) (now : Int) : List TemperatureHistoryRow :=
  readings.enum.map fun p =>
    { id := base + p.1
      status_id := sid
      component := p.2.component
      actual := p.2.actual
      target := p.2.target
      timestamp := p.2.timestamp
      created_at := now }

/-- One `JobHistory` row built from a `JobSummary` (`_build_job_entities`). -/
def mkJobRow (j : JobSummary) (activeFlag : Bool) (sid rowId : Nat)
    (now : Int) : JobHistoryRow :=
  { id := rowId
    status_id := sid
    job_identifier := j.id
    name := j.name
    progress := j.progress
    status_value := j.status
    started_at := j.started_at
    estimated_completion := j.estimated_completion
    is_active := activeFlag
    created_at := now }

/-- `_build_job_entities` — the active job first (flagged active), then every
queued job (flagged inactive), with ids assigned in that order. -/
def _build_job_entities (active_job : Option JobSummary)
    (queued_jobs : List JobSummary) (sid base : Nat) (now : Int) :
    List JobHistoryRow :=
  match active_job with
  | some aj =>
      mkJobRow aj true sid base now ::
        queued_jobs.enum.map fun p => mkJobRow p.2 false sid (base + 1 + p.1) now
  | none =>
      queued_jobs.enum.map fun p => mkJobRow p.2 false sid (base + p.1) now

/-- `create_status_history` — persist a snapshot together with its nested
temperature and job rows; `recorded_at` defaults to the current time.
Returns the new store and the persisted snapshot row. -/
def create_status_history (s : Store) (status : PrinterStatus) (now : Int)
    (recorded_at : Option Int := none) : Store × StatusHistoryRow :=
  let timestamp := recorded_at.getD now
  let sid := nextSnapshotId s
  let row : StatusHistoryRow :=
    { id := sid
      state := status.state
      message := status.message
      uptime_seconds := status.uptime_seconds
      recorded_at := timestamp
      active_job_id := status.active_job.map (·.id)
      active_job_name := status.active_job.map (·.name)
      active_job_progress := status.active_job.map (·.progress)
      active_job_status := status.active_job.map (·.status)
      active_job_started_at := status.active_job.bind (·.started_at)
      active_job_estimated_completion :=
        status.active_job.bind (·.estimated_completion)
      created_at := now }
  let tempRows := _build_temperature_entities status.temperatures sid (nextTempId s) now
  let jobRows := _build_job_entities status.active_job status.queued_jobs sid (nextJobId s) now
  ({ snapshots := s.snapshots ++ [row]
     temps := s.temps ++ tempRows
     jobs := s.jobs ++ jobRows }, row)

/-- `list_status_history` — `ORDER BY recorded_at DESC, id DESC` with offset
and limit. -/
def list_status_history (s : Store) (limit : Nat := 100) (offset : Nat := 0) :
    List StatusHistoryRow :=
  ((List.insertionSort snapLE s.snapshots).drop offset).take limit

/-- The Python keyword names accepted by `update_status_history`, one
constructor per typed column plus `other` for any unrecognized keyword. -/
inductive FieldUpdate where
  | state (v : String)
  | message (v : Option String)
  | uptime_seconds (v : Option Int)
  | recorded_at (v : Int)
  | active_job_id (v : Option String)
  | active_job_name (v : Option String)
  | active_job_progress (v : Option Rat)
  | active_job_status (v : Option String)
  | active_job_started_at (v : Option Int)
  | active_job_estimated_completion (v : Option Int)
  | other (key : String)
deriving DecidableEq, Repr

/-- The Python keyword naming this field update. -/
def FieldUpdate.key : FieldUpdate → String
  | .state _ => "state"
  | .message _ => "message"
  | .uptime_seconds _ => "uptime_seconds"
  | .recorded_at _ => "recorded_at"
  | .active_job_id _ => "active_job_id"
  | .active_job_name _ => "active_job_name"
  | .active_job_progress _ => "active_job_progress"
  | .active_job_status _ => "active_job_status"
  | .active_job_started_at _ => "active_job_started_at"
  | .active_job_estimated_completion _ => "active_job_estimated_completion"
  | .other k => k

/-- The `mutable_fields` set literal of `update_status_history`. -/
def mutable_fields : List String :=
  ["state", "message", "uptime_seconds", "recorded_at", "active_job_id",
   "active_job_name", "active_job_progress", "active_job_status",
   "active_job_started_at", "active_job_estimated_completion"]

/-- `setattr(entry, key, value)` for one field update. -/
def applyField (e : StatusHistoryRow) : FieldUpdate → StatusHistoryRow
  | .state v => { e with state := v }
  | .message v => { e with message := v }
  | .uptime_seconds v => { e with uptime_seconds := v }
  | .recorded_at v => { e with recorded_at := v }
  | .active_job_id v => { e with active_job_id := v }
  | .active_job_name v => { e with active_job_name := v }
  | .active_job_progress v => { e with active_job_progress := v }
  | .active_job_status v => { e with active_job_status := v }
  | .active_job_started_at v => { e with active_job_started_at := v }
  | .active_job_estimated_completion v => { e with active_job_estimated_completion := v }
  | .other _ => e

/-- `update_status_history` — look the row up by id (`None` when absent),
apply every keyword whose name is in `mutable_fields`, ignore the rest. -/
def update_status_history (s : Store) (status_id : Nat)
    (fields : List FieldUpdate) : Option (Store × StatusHistoryRow) :=
  match s.snapshots.find? (fun r => r.id == status_id) with
  | none => none
  | some entry =>
      let entry2 := fields.foldl
        (fun acc f => if mutable_fields.contains f.key then applyField acc f else acc)
        entry
      some ({ s with snapshots :=
                s.snapshots.map (fun r => if r.id == status_id then entry2 else r) },
            entry2)

/-- `delete_older_than` — bulk `DELETE FROM status_history WHERE
recorded_at < before`, with `ON DELETE CASCADE` removing the child rows of
every deleted snapshot; returns the statement row count. -/
def delete_older_than (s : Store) (before : Int) : Store × Nat :=
  let deleted := s.snapshots.filter (fun sn => sn.recorded_at < before)
  let deletedIds := deleted.map (·.id)
  ({ snapshots := s.snapshots.filter (fun sn => ¬ (sn.recorded_at < before))
     temps := s.temps.filter (fun t => ¬ (deletedIds.contains t.status_id))
     jobs := s.jobs.filter (fun j => ¬ (deletedIds.contains j.status_id)) },
   deleted.length)

/-! ### Metrics aggregator (`services/dashboard_metrics.py`) -/

/-- Serialisable job structure produced by `_map_job` and by the inline dict
literals of `get_dashboard_overview` / `get_job_metrics`. -/
structure JobView where
  job_identifier : String
  name : Option String
  progress : Option Rat
  status : Option String
  started_at : Option Int
  estimated_completion : Option Int
  is_active : Bool
  last_seen_at : Option Int
deriving DecidableEq, Repr

/-- `_map_job` — convert a `JobHistory` row into its serialisable structure. -/
def _map_job (j : JobHistoryRow) : JobView :=
  { job_identifier := j.job_identifier
    name := some j.name
    progress := some j.progress
    status := some j.status_value
    started_at := j.started_at
    estimated_completion := j.estimated_completion
    is_active := j.is_active
    last_seen_at := some j.created_at }

/-- The overview payload of `get_dashboard_overview`. -/
structure Overview where
  updated_at : Option Int
  state : String
  message : Option String
  uptime_seconds : Option Int
  active_job : Option JobView
  queued_count : Nat
  queued_entries : List JobView
  progress_history : List (Int × Rat)
deriving DecidableEq, Repr

/-- The initial overview dict, returned unchanged when the store is empty. -/
def defaultOverview : Overview :=
  { updated_at := none
    state := "unknown"
    message := none
    uptime_seconds := none
    active_job := none
    queued_count := 0
    queued_entries := []
    progress_history := [] }

/-- `max(1, min(progress_points, 200))`. -/
def clampProgressPoints (p : Int) : Int := max 1 (min p 200)

/-- The most recent snapshot: first row of
`ORDER BY recorded_at DESC, id DESC LIMIT 1`. -/
def latestSnapshot (s : Store) : Option StatusHistoryRow :=
  (List.insertionSort snapLE s.snapshots).head?

/-- The `jobs` relationship of a snapshot: its `job_history` rows. -/
def jobsOf (s : Store) (sid : Nat) : List JobHistoryRow :=
  s.jobs.filter (fun j => j.status_id == sid)

/-- Sorting key used for queued jobs: ascending `created_at`. -/
def createdLE (a b : JobHistoryRow) : Prop := a.created_at ≤ b.created_at

instance : DecidableRel createdLE := fun a b => by unfold createdLE; infer_instance

instance : IsTotal JobHistoryRow createdLE :=
  ⟨by intro a b; unfold createdLE; omega⟩

instance : IsTrans JobHistoryRow createdLE :=
  ⟨by intro a b c hab hbc; unfold createdLE at *; omega⟩

/-- Snapshots with a non-null `active_job_progress` column
(`WHERE active_job_progress IS NOT NULL`). -/
def progressRows (s : Store) : List StatusHistoryRow :=
  s.snapshots.filter (fun r => r.active_job_progress.isSome)

/-- One `(recorded_at, progress)` pair of the overview history series. -/
def progressPair (r : StatusHistoryRow) : Option (Int × Rat) :=
  r.active_job_progress.map (fun p => (r.recorded_at, p))

/-- The trailing progress series: most recent `pp` progress-bearing
snapshots, reversed into chronological order. -/
def progressSeries (s : Store) (pp : Nat) : List (Int × Rat) :=
  (((List.insertionSort snapLE (progressRows s)).take pp).reverse).filterMap progressPair

/-- The full chronological progress series (no limit). -/
def fullProgressSeries (s : Store) : List (Int × Rat) :=
  ((List.insertionSort snapLE (progressRows s)).reverse).filterMap progressPair

/-- The fallback active-job dict built from the snapshot's denormalized
columns; guarded by Python truthiness of `latest.active_job_id`. -/
def fallbackActiveJob (latest : StatusHistoryRow) : Option JobView :=
  match latest.active_job_id with
  | none => none
  | some aid =>
      if aid = "" then none
      else some
        { job_identifier := aid
          name := latest.active_job_name
          progress := latest.active_job_progress
          status := latest.active_job_status
          started_at := latest.active_job_started_at
          estimated_completion := latest.active_job_estimated_completion
          is_active := true
          last_seen_at := some latest.recorded_at }

/-- `get_dashboard_overview` — condensed snapshot of the latest printer
state plus the trailing progress series. -/
def get_dashboard_overview (s : Store) (progress_points : Int := 20) : Overview :=
  let pp := clampProgressPoints progress_points
  match latestSnapshot s with
  | none => defaultOverview
  | some latest =>
      let ljobs := jobsOf s latest.id
      let active_job : Option JobView :=
        match ljobs.find? (fun j => j.is_active) with
        | some j => some (_map_job j)
        | none => fallbackActiveJob latest
      let queued_entries :=
        (List.insertionSort createdLE (ljobs.filter (fun j => !j.is_active))).map _map_job
      { updated_at := some latest.recorded_at
        state := latest.state
        message := latest.message
        uptime_seconds := latest.uptime_seconds
        active_job := active_job
        queued_count := queued_entries.length
        queued_entries := queued_entries
        progress_history := progressSeries s pp.toNat }

/-- Window ordering of the temperature top-1-per-component query:
`ORDER BY timestamp DESC, id DESC`. -/
def tempLE (a b : TemperatureHistoryRow) : Prop :=
  b.timestamp < a.timestamp ∨ (a.timestamp = b.timestamp ∧ b.id ≤ a.id)

instance : DecidableRel tempLE := fun a b => by unfold tempLE; infer_instance

instance : IsTotal TemperatureHistoryRow tempLE :=
  ⟨by intro a b; unfold tempLE; omega⟩

instance : IsTrans TemperatureHistoryRow tempLE :=
  ⟨by intro a b c hab hbc; unfold tempLE at *; omega⟩

/-- All temperature rows of one component. -/
def tempRowsFor (s : Store) (c : String) : List TemperatureHistoryRow :=
  s.temps.filter (fun t => t.component == c)

/-- The distinct components appearing in `temperature_history`. -/
def tempComponents (s : Store) : List String :=
  (s.temps.map (·.component)).dedup

/-- The `row_rank = 1` rows of the window query: per component, the row
ranked first under `ORDER BY timestamp DESC, id DESC`. -/
def latestTempRows (s : Store) : List TemperatureHistoryRow :=
  (tempComponents s).filterMap
    (fun c => (List.insertionSort tempLE (tempRowsFor s c)).head?)

/-- Aggregate statistics block of the `GROUP BY component` query. -/
structure TempStatistics where
  samples : Nat
  min_actual : Option Rat
  max_actual : Option Rat
  avg_actual : Option Rat
deriving DecidableEq, Repr

/-- `COUNT`, `MIN`, `MAX`, `AVG` over the `actual` column of a group. -/
def statsFor (rows : List TemperatureHistoryRow) : TempStatistics :=
  { samples := rows.length
    min_actual := (rows.map (·.actual)).min?
    max_actual := (rows.map (·.actual)).max?
    avg_actual :=
      if rows.length = 0 then none
      else some ((rows.map (·.actual)).sum / (rows.length : Rat)) }

/-- The `stats_lookup` mapping: one `(component, statistics)` pair per
distinct component, from the `GROUP BY component ORDER BY component` query. -/
def statsAssoc (s : Store) : List (String × TempStatistics) :=
  (List.insertionSort (fun a b : String => a ≤ b) (tempComponents s)).map
    (fun c => (c, statsFor (tempRowsFor s c)))

/-- The `latest` block of one component entry. -/
structure TempLatest where
  actual : Rat
  target : Option Rat
  timestamp : Int
deriving DecidableEq, Repr

/-- One per-component entry of the temperature summary. -/
structure ComponentSummary where
  component : String
  latest : TempLatest
  statistics : Option TempStatistics
deriving DecidableEq, Repr

/-- Final sorting of the summary entries: ascending component name. -/
def compLE (a b : ComponentSummary) : Prop := a.component ≤ b.component

instance : DecidableRel compLE := fun a b => by unfold compLE; infer_instance

instance : IsTotal ComponentSummary compLE :=
  ⟨by intro a b; exact le_total a.component b.component⟩

instance : IsTrans ComponentSummary compLE :=
  ⟨by intro a b c hab hbc; exact le_trans hab hbc⟩

/-- The temperature summary payload. -/
structure TemperatureSummary where
  updated_at : Option Int
  components : List ComponentSummary
deriving DecidableEq, Repr

/-- `get_temperature_summary` — latest reading per component (window query)
merged with the per-component aggregate statistics, sorted by component. -/
def get_temperature_summary (s : Store) : TemperatureSummary :=
  let latest_rows := latestTempRows s
  let stats_lookup := statsAssoc s
  let components := latest_rows.map fun r =>
    { component := r.component
      latest := { actual := r.actual, target := r.target, timestamp := r.timestamp }
      statistics := List.lookup r.component stats_lookup : ComponentSummary }
  { updated_at := latest_rows.foldl
      (fun acc r =>
        match acc with
        | none => some r.timestamp
        | some m => if m < r.timestamp then some r.timestamp else some m)
      none
    components := List.insertionSort compLE components }

/-- One row of the `jobs_window` subquery: a `job_history` row joined with
its owning snapshot's `recorded_at`. -/
structure JoinedJob where
  id : Nat
  job_identifier : String
  name : String
  progress : Rat
  status_value : String
  started_at : Option Int
  estimated_completion : Option Int
  is_active : Bool
  created_at : Int
  recorded_at : Int
deriving DecidableEq, Repr

/-- Window ordering of the jobs query: owning snapshot `recorded_at DESC`,
then observation `id DESC`. -/
def jjLE (a b : JoinedJob) : Prop :=
  b.recorded_at < a.recorded_at ∨ (a.recorded_at = b.recorded_at ∧ b.id ≤ a.id)

/-- Strict version of `jjLE`. -/
def jjLT (a b : JoinedJob) : Prop :=
  b.recorded_at < a.recorded_at ∨ (a.recorded_at = b.recorded_at ∧ b.id < a.id)

instance : DecidableRel jjLE := fun a b => by unfold jjLE; infer_instance

instance : DecidableRel jjLT := fun a b => by unfold jjLT; infer_instance

instance : IsTotal JoinedJob jjLE :=
  ⟨by intro a b; unfold jjLE; omega⟩

instance : IsTrans JoinedJob jjLE :=
  ⟨by intro a b c hab hbc; unfold jjLE at *; omega⟩

/-- The `JOIN status_history ON status_history.id = job_history.status_id`
of the jobs window subquery. -/
def jobsWindow (s : Store) : List JoinedJob :=
  s.jobs.filterMap fun j =>
    (s.snapshots.find? (fun sn => sn.id == j.status_id)).map fun sn =>
      { id := j.id
        job_identifier := j.job_identifier
        name := j.name
        progress := j.progress
        status_value := j.status_value
        started_at := j.started_at
        estimated_completion := j.estimated_completion
        is_active := j.is_active
        created_at := j.created_at
        recorded_at := sn.recorded_at }

/-- The distinct job identifiers of the window. -/
def jobIdentifiers (s : Store) : List String :=
  ((jobsWindow s).map (·.job_identifier)).dedup

/-- The `row_rank = 1` rows: per job identifier, the window row ranked first
under `ORDER BY recorded_at DESC, id DESC`. -/
def latestJobRows (s : Store) : List JoinedJob :=
  (jobIdentifiers s).filterMap
    (fun k => (List.insertionSort jjLE ((jobsWindow s).filter
        (fun r => r.job_identifier == k))).head?)

/-- `max(1, min(limit, 50))`. -/
def clampJobLimit (limit : Int) : Int := max 1 (min limit 50)

/-- The limited `latest_jobs` result: the deduplicated rows ordered by
`recorded_at DESC, id DESC`, first `limit` of them. -/
def recentJobRows (s : Store) (limit : Int) : List JoinedJob :=
  (List.insertionSort jjLE (latestJobRows s)).take (clampJobLimit limit).toNat

/-- The dict literal built for one row of `latest_jobs`
(`last_seen_at` comes from the owning snapshot here). -/
def jobMetricsView (r : JoinedJob) : JobView :=
  { job_identifier := r.job_identifier
    name := some r.name
    progress := some r.progress
    status := some r.status_value
    started_at := r.started_at
    estimated_completion := r.estimated_completion
    is_active := r.is_active
    last_seen_at := some r.recorded_at }

/-- The `GROUP BY status_value` histogram over a row set. -/
def statusTotals (rows : List JoinedJob) : List (String × Nat) :=
  (rows.map (·.status_value)).dedup.map
    (fun v => (v, rows.countP (fun r => r.status_value == v)))

/-- The job metrics payload. -/
structure JobMetrics where
  updated_at : Option Int
  recent : List JobView
  status_totals : List (String × Nat)
deriving DecidableEq, Repr

/-- `get_job_metrics` — the `limit` most recently updated jobs (one row per
identifier) plus the status histogram over all deduplicated rows. -/
def get_job_metrics (s : Store) (limit : Int := 5) : JobMetrics :=
  let latest_jobs := recentJobRows s limit
  { updated_at := latest_jobs.foldl
      (fun acc r =>
        match acc with
        | none => some r.recorded_at
        | some m => if m < r.recorded_at then some r.recorded_at else some m)
      none
    recent := latest_jobs.map jobMetricsView
    status_totals := statusTotals (latestJobRows s) }

/-! ### Websocket broadcaster (`websocket/gateway.py`) -/

/-- Errors of the non-blocking queue primitives
(`asyncio.QueueFull` / `asyncio.QueueEmpty`). -/
inductive QueueErr where
  | full
  | empty
deriving DecidableEq, Repr

/-- An `asyncio.Queue` value: its `maxsize` bound and pending items in FIFO
order (a `maxsize` of zero means unbounded, as in asyncio). -/
structure BQueue where
  maxsize : Nat
  items : List PrinterStatus
deriving DecidableEq, Repr

/-- `Queue.put_nowait` — append, or raise `QueueFull` when the queue is
bounded and already holds `maxsize` items. -/
def put_nowait (q : BQueue) (s : PrinterStatus) : Except QueueErr BQueue :=
  if 0 < q.maxsize ∧ q.maxsize ≤ q.items.length then .error .full
  else .ok { q with items := q.items ++ [s] }

/-- `Queue.get_nowait` — pop the oldest item, or raise `QueueEmpty`. -/
def get_nowait (q : BQueue) : Except QueueErr (PrinterStatus × BQueue) :=
  match q.items with
  | [] => .error .empty
  | x :: rest => .ok (x, { q with items := rest })

/-- The per-queue body of `StatusBroadcaster.publish`: try `put_nowait`; on
`QueueFull`, drop the pending item (ignoring `QueueEmpty`) and put again. -/
def publishToQueue (s : PrinterStatus) (q : BQueue) : Except QueueErr BQueue :=
  match put_nowait q s with
  | .ok q2 => .ok q2
  | .error _ =>
      let q2 :=
        match get_nowait q with
        | .ok r => r.2
        | .error _ => q
      put_nowait q2 s

/-- The broadcaster state: its registered listener queues. -/
structure StatusBroadcaster where
  queues : List BQueue
deriving DecidableEq, Repr

/-- `StatusBroadcaster.connect` — register a fresh queue with
`maxsize = 1` and return it. -/
def StatusBroadcaster.connect (b : StatusBroadcaster) :
    StatusBroadcaster × BQueue :=
  let q : BQueue := { maxsize := 1, items := [] }
  ({ queues := b.queues ++ [q] }, q)

/-- The `for queue in queues` loop of `publish`: deliver to each queue in
turn; an uncaught queue error propagates. -/
def publishAll (s : PrinterStatus) : List BQueue → Except QueueErr (List BQueue)
  | [] => .ok []
  | q :: rest => do
      let q2 ← publishToQueue s q
      let rest2 ← publishAll s rest
      .ok (q2 :: rest2)

/-- `StatusBroadcaster.publish` — fan a status out to every registered
listener queue. -/
def StatusBroadcaster.publish (b : StatusBroadcaster) (s : PrinterStatus) :
    Except QueueErr StatusBroadcaster :=
  (publishAll s b.queues).map (fun qs => { queues := qs })

/-! ### Retention cleanup loop (`app.py`, `_cleanup_loop`) -/

/-- Observable events of one run of the cleanup loop: a successful purge
with its row count, a caught-and-logged purge failure, and a timed sleep of
the configured interval. -/
inductive LoopEvent where
  | purged (count : Nat)
  | loggedFailure
  | slept (seconds : Nat)
deriving DecidableEq, Repr

/-- The awaited `purge_history_before(cutoff)` call of one tick: it either
raises (the transaction rolls back, leaving the store unchanged) or commits
the bulk delete and returns the deleted-row count. -/
def purgeAttempt (fails : Bool) (cutoff : Int) (s : Store) :
    Except Unit (Store × Nat) :=
  if fails then .error () else .ok (delete_older_than s cutoff)

/-- One iteration of `_cleanup_loop`: `try` the purge, `except` any failure
(log it, keep the store), then sleep for the cleanup interval. -/
def cleanupTick (interval : Nat) (cutoff : Int) (fails : Bool) (s : Store) :
    Store × List LoopEvent :=
  match purgeAttempt fails cutoff s with
  | .ok (s2, n) => (s2, [LoopEvent.purged n, LoopEvent.slept interval])
  | .error _ => (s, [LoopEvent.loggedFailure, LoopEvent.slept interval])

/-- A finite run of `_cleanup_loop`: each listed tick carries its computed
cutoff and whether its persistence call raises. -/
def cleanupLoopRun (interval : Nat) (ticks : List (Int × Bool)) (s : Store) :
    Store × List LoopEvent :=
  match ticks with
  | [] => (s, [])
  | (cutoff, fails) :: rest =>
      let step := cleanupTick interval cutoff fails s
      let tail := cleanupLoopRun interval rest step.1
      (tail.1, step.2 ++ tail.2)

/-- Whether a loop event is a timed sleep. -/
def LoopEvent.isSleep : LoopEvent → Bool
  | .slept _ => true
  | _ => false

/-! ### Helper lemmas -/

theorem insertionSort_head_spec {α : Type} (r : α → α → Prop) [DecidableRel r]
    [IsTotal α r] [IsTrans α r] {l : List α} {x : α}
    (h : (List.insertionSort r l).head? = some x) :
    x ∈ l ∧ ∀ y ∈ l, r x y := by
  cases hsl : List.insertionSort r l with
  | nil => rw [hsl] at h; simp at h
  | cons a t =>
    rw [hsl] at h
    simp only [List.head?_cons, Option.some.injEq] at h
    subst h
    constructor
    · have hmem : a ∈ List.insertionSort r l := by
        rw [hsl]; exact List.mem_cons_self a t
      exact (List.mem_insertionSort r).mp hmem
    · intro y hy
      have hys : y ∈ List.insertionSort r l := (List.mem_insertionSort r).mpr hy
      rw [hsl] at hys
      rcases List.mem_cons.mp hys with h1 | h2
      · subst h1
        rcases total_of r y y with h | h <;> exact h
      · have hs : List.Sorted r (List.insertionSort r l) :=
          List.sorted_insertionSort r l
        rw [hsl] at hs
        exact List.rel_of_sorted_cons hs y h2

theorem nodup_map_key_filterMap {α β : Type} [DecidableEq α] (key : β → α)
    (g : α → Option β) (hg : ∀ c x, g c = some x → key x = c)
    {l : List α} (hl : l.Nodup) : ((l.filterMap g).map key).Nodup := by
  induction l with
  | nil => simp
  | cons c l ih =>
    rcases List.nodup_cons.mp hl with ⟨hc, hl2⟩
    cases hgc : g c with
    | none => simpa [List.filterMap_cons, hgc] using ih hl2
    | some x =>
      rw [List.filterMap_cons, hgc]
      simp only [List.map_cons, List.nodup_cons]
      refine ⟨?_, ih hl2⟩
      rw [hg c x hgc]
      intro hmem
      rcases List.mem_map.mp hmem with ⟨y, hy, hky⟩
      rcases List.mem_filterMap.mp hy with ⟨c2, hc2, hgc2⟩
      rw [hg c2 y hgc2] at hky
      exact hc (hky ▸ hc2)

theorem map_key_filterMap_eq {α β : Type} (key : β → α) (g : α → Option β)
    (hg : ∀ c x, g c = some x → key x = c) {l : List α}
    (h : ∀ c ∈ l, (g c).isSome) : (l.filterMap g).map key = l := by
  induction l with
  | nil => rfl
  | cons c l ih =>
    have hc := h c (List.mem_cons_self c l)
    cases hgc : g c with
    | none => rw [hgc] at hc; simp at hc
    | some x =>
      rw [List.filterMap_cons, hgc, List.map_cons, hg c x hgc,
        ih (fun c2 hc2 => h c2 (List.mem_cons_of_mem _ hc2))]

theorem lookup_map_pair {α β : Type} [DecidableEq α] (f : α → β)
    {l : List α} {c : α} (hc : c ∈ l) :
    List.lookup c (l.map fun x => (x, f x)) = some (f c) := by
  induction l with
  | nil => cases hc
  | cons a l ih =>
    simp only [List.map_cons, List.lookup]
    by_cases h : c = a
    · subst h; simp
    · have hne : (c == a) = false := by
        simpa using h
      rw [hne]
      exact ih (List.mem_cons.mp hc |>.resolve_left h)

theorem head?_take_of_pos {α : Type} {l : List α} {n : Nat} (h : 1 ≤ n) :
    (l.take n).head? = l.head? := by
  cases l with
  | nil => simp
  | cons a t =>
    cases n with
    | zero => omega
    | succ m => simp

theorem filterMap_suffix {α β : Type} (f : α → Option β) {l₁ l₂ : List α}
    (h : l₁ <:+ l₂) : l₁.filterMap f <:+ l₂.filterMap f := by
  rcases h with ⟨t, rfl⟩
  exact ⟨t.filterMap f, (List.filterMap_append t l₁ f).symm⟩

/-! ### C9 -/

/-- C9: on an empty store, `get_dashboard_overview` returns the default
overview — state `"unknown"`, null `updated_at`, `message`, `uptime` and
`active_job`, a queued-jobs block with count 0 and no entries, and an empty
progress history — for every `progress_points` value. -/
theorem overview_empty_store (p : Int) :
    get_dashboard_overview emptyStore p =
      { updated_at := none
        state := "unknown"
        message := none
        uptime_seconds := none
        active_job := none
        queued_count := 0
        queued_entries := []
        progress_history := [] } := rfl

/-! ### C5 -/

/-- One concrete snapshot used by the `update_status_history` claim. -/
def snapC5 : StatusHistoryRow :=
  { id := 1
    state := "idle"
    message := none
    uptime_seconds := none
    recorded_at := 100
    active_job_id := none
    active_job_name := none
    active_job_progress := none
    active_job_status := none
    active_job_started_at := none
    active_job_estimated_completion := none
    created_at := 100 }

/-- A store holding just `snapC5`. -/
def storeC5 : Store := { snapshots := [snapC5], temps := [], jobs := [] }

/-- C5 counterexample: `recorded_at` is in the `mutable_fields` set, so
`update(id, recorded_at := 999)` changes the snapshot's `recorded_at` from
100 to 999 — contradicting the claim that `recorded_at` is left unchanged. -/
theorem update_mutates_recorded_at :
    (update_status_history storeC5 1 [FieldUpdate.recorded_at 999]).map
        (fun r => r.2.recorded_at) = some 999 ∧
      snapC5.recorded_at = 100 := by
  exact ⟨rfl, rfl⟩

theorem applyField_preserves_id_created (e : StatusHistoryRow)
    (f : FieldUpdate) :
    (applyField e f).id = e.id ∧ (applyField e f).created_at = e.created_at := by
  cases f <;> simp [applyField]

theorem updateFold_preserves_id_created (fields : List FieldUpdate) :
    ∀ entry : StatusHistoryRow,
      ((fields.foldl
          (fun acc f =>
            if mutable_fields.contains f.key then applyField acc f else acc)
          entry).id = entry.id ∧
        (fields.foldl
          (fun acc f =>
            if mutable_fields.contains f.key then applyField acc f else acc)
          entry).created_at = entry.created_at) := by
  induction fields with
  | nil => intro entry; exact ⟨rfl, rfl⟩
  | cons f rest ih =>
    intro entry
    simp only [List.foldl_cons]
    by_cases h : mutable_fields.contains f.key
    · rw [if_pos h]
      rcases ih (applyField entry f) with ⟨h1, h2⟩
      rcases applyField_preserves_id_created entry f with ⟨h3, h4⟩
      exact ⟨h1.trans h3, h2.trans h4⟩
    · rw [if_neg h]
      exact ih entry

theorem updateFold_noop (fields : List FieldUpdate)
    (h : ∀ f ∈ fields, ¬ mutable_fields.contains f.key) :
    ∀ entry : StatusHistoryRow,
      fields.foldl
        (fun acc f =>
          if mutable_fields.contains f.key then applyField acc f else acc)
        entry = entry := by
  induction fields with
  | nil => intro entry; rfl
  | cons f rest ih =>
    intro entry
    simp only [List.foldl_cons]
    rw [if_neg (h f (List.mem_cons_self f rest))]
    exact ih (fun g hg => h g (List.mem_cons_of_mem f hg)) entry

/-- C5 (amended): `update(id, fields)` mutates only the fields of the
`mutable_fields` set — which contains `recorded_at` in addition to `state`,
`message`, `uptime_seconds` and the denormalized active-job columns —
silently ignores unrecognized field names, and leaves the snapshot's `id`
and `created_at`, its child readings and observations, and every other
snapshot unchanged. -/
theorem update_status_history_frame (s : Store) (sid : Nat)
    (fields : List FieldUpdate) (s2 : Store) (e : StatusHistoryRow)
    (h : update_status_history s sid fields = some (s2, e)) :
    s2.temps = s.temps ∧ s2.jobs = s.jobs ∧
      (∃ old, s.snapshots.find? (fun r => r.id == sid) = some old ∧
        e.id = old.id ∧ e.created_at = old.created_at ∧
        ((∀ f ∈ fields, ¬ mutable_fields.contains f.key) → e = old)) ∧
      (∀ r ∈ s.snapshots, r.id ≠ sid → r ∈ s2.snapshots) := by
  unfold update_status_history at h
  cases hfind : s.snapshots.find? (fun r => r.id == sid) with
  | none => rw [hfind] at h; cases h
  | some old =>
    rw [hfind] at h
    simp only [Option.some.injEq, Prod.mk.injEq] at h
    rcases h with ⟨hs2, he⟩
    refine ⟨?_, ?_, ⟨old, rfl, ?_, ?_, ?_⟩, ?_⟩
    · rw [← hs2]
    · rw [← hs2]
    · rw [← he]; exact (updateFold_preserves_id_created fields old).1
    · rw [← he]; exact (updateFold_preserves_id_created fields old).2
    · intro hnone; rw [← he]; exact updateFold_noop fields hnone old
    · intro r hr hne
      rw [← hs2]
      refine List.mem_map.mpr ⟨r, hr, ?_⟩
      have hb : (r.id == sid) = false := by simpa using hne
      simp [hb]

/-- Result row of the concrete C5 witness update. -/
def snapC5upd : StatusHistoryRow := { snapC5 with state := "printing" }

/-- Result store of the concrete C5 witness update. -/
def storeC5upd : Store :=
  { snapshots := [snapC5upd], temps := [], jobs := [] }

/-- C5 witness: the frame theorem applied to a concrete one-snapshot store
and a concrete update of `state` plus an unrecognized field name. -/
theorem update_status_history_frame_witness :
    storeC5upd.temps = storeC5.temps ∧ storeC5upd.jobs = storeC5.jobs ∧
      (∃ old, storeC5.snapshots.find? (fun r => r.id == 1) = some old ∧
        snapC5upd.id = old.id ∧ snapC5upd.created_at = old.created_at ∧
        ((∀ f ∈ [FieldUpdate.state "printing", FieldUpdate.other "bogus"],
            ¬ mutable_fields.contains f.key) → snapC5upd = old)) ∧
      (∀ r ∈ storeC5.snapshots, r.id ≠ 1 → r ∈ storeC5upd.snapshots) :=
  update_status_history_frame storeC5 1
    [FieldUpdate.state "printing", FieldUpdate.other "bogus"]
    storeC5upd snapC5upd (by decide)

/-! ### C2 -/

theorem publishToQueue_singleton (s : PrinterStatus) (q : BQueue)
    (hm : q.maxsize = 1) (hlen : q.items.length ≤ 1) :
    publishToQueue s q = .ok { q with items := [s] } := by
  rcases q with ⟨m, items⟩
  simp only at hm
  subst hm
  cases items with
  | nil => rfl
  | cons x rest =>
    cases rest with
    | nil => rfl
    | cons y t => simp at hlen

theorem publishAll_coalesces (s : PrinterStatus) (l : List BQueue)
    (h : ∀ q ∈ l, q.maxsize = 1 ∧ q.items.length ≤ 1) :
    publishAll s l = .ok (l.map (fun q => { q with items := [s] })) := by
  induction l with
  | nil => rfl
  | cons q rest ih =>
    rcases h q (List.mem_cons_self q rest) with ⟨hm, hlen⟩
    have hq := publishToQueue_singleton s q hm hlen
    have hrest := ih (fun q2 hq2 => h q2 (List.mem_cons_of_mem q hq2))
    simp only [publishAll, hq, hrest, List.map_cons]
    rfl

/-- C2: when every connected subscription queue is the one-slot channel
created by `connect` (capacity one, at most one pending item), `publish`
succeeds — never raising a queue-full error — and leaves every
subscription's slot holding exactly the published snapshot: it is placed
into an empty slot, and evicts and replaces the occupant of a full one. -/
theorem broadcaster_publish_coalesces (b : StatusBroadcaster)
    (s : PrinterStatus)
    (h : ∀ q ∈ b.queues, q.maxsize = 1 ∧ q.items.length ≤ 1) :
    b.publish s =
      .ok { queues := b.queues.map (fun q => { q with items := [s] }) } := by
  unfold StatusBroadcaster.publish
  rw [publishAll_coalesces s b.queues h]
  rfl

/-- A concrete status payload. -/
def statusA : PrinterStatus :=
  { state := "printing"
    message := some "All good"
    uptime_seconds := some 3600
    active_job := none
    queued_jobs := []
    temperatures := [] }

/-- A second concrete status payload. -/
def statusB : PrinterStatus :=
  { state := "idle"
    message := none
    uptime_seconds := none
    active_job := none
    queued_jobs := []
    temperatures := [] }

/-- C2 witness: publishing to a broadcaster with one empty slot and one
occupied slot succeeds and leaves both slots holding the new snapshot. -/
theorem broadcaster_publish_coalesces_witness :
    StatusBroadcaster.publish
        { queues := [{ maxsize := 1, items := [] },
                     { maxsize := 1, items := [statusA] }] } statusB =
      .ok { queues := [{ maxsize := 1, items := [statusB] },
                       { maxsize := 1, items := [statusB] }] } := by
  exact broadcaster_publish_coalesces
    { queues := [{ maxsize := 1, items := [] },
                 { maxsize := 1, items := [statusA] }] } statusB
    (by decide)

/-! ### C8 -/

theorem cleanupLoopRun_sleep_count (interval : Nat) :
    ∀ (ticks : List (Int × Bool)) (s : Store),
      ((cleanupLoopRun interval ticks s).2.countP LoopEvent.isSleep) =
        ticks.length := by
  intro ticks
  induction ticks with
  | nil => intro s; rfl
  | cons t rest ih =>
    intro s
    rcases t with ⟨cutoff, fails⟩
    cases fails <;>
      simp [cleanupLoopRun, cleanupTick, purgeAttempt, List.countP_cons,
        LoopEvent.isSleep, ih]

/-- C8: a tick whose `purge_history_before` call raises is caught and
logged, leaves the store exactly as it was, does not terminate the loop
(the remaining ticks run and produce the same final store), and performs no
immediate retry — the very next event after the logged failure is the timed
sleep of the configured cleanup interval, after which the next tick runs;
moreover every tick of any run sleeps exactly once. -/
theorem cleanup_loop_survives_failure (interval : Nat) (cutoff : Int)
    (rest : List (Int × Bool)) (s : Store) :
    (cleanupLoopRun interval ((cutoff, true) :: rest) s).1 =
        (cleanupLoopRun interval rest s).1 ∧
      (cleanupLoopRun interval ((cutoff, true) :: rest) s).2 =
        LoopEvent.loggedFailure :: LoopEvent.slept interval ::
          (cleanupLoopRun interval rest s).2 ∧
      (∀ ticks : List (Int × Bool),
        ((cleanupLoopRun interval ticks s).2.countP LoopEvent.isSleep) =
          ticks.length) := by
  refine ⟨?_, ?_, fun ticks => cleanupLoopRun_sleep_count interval ticks s⟩
  · simp [cleanupLoopRun, cleanupTick, purgeAttempt]
  · simp [cleanupLoopRun, cleanupTick, purgeAttempt]

/-! ### C1 -/

theorem cascade_filter_mem {β : Type} (s : Store) (cutoff : Int)
    (hid : (s.snapshots.map (·.id)).Nodup)
    {rows : List β} (fk : β → Nat)
    (hfk : ∀ x ∈ rows, ∃ sn ∈ s.snapshots, sn.id = fk x) (x : β) :
    x ∈ rows.filter (fun y =>
        ¬ (((s.snapshots.filter (fun sn => sn.recorded_at < cutoff)).map
            (·.id)).contains (fk y))) ↔
      x ∈ rows ∧ ∃ sn ∈ s.snapshots.filter
        (fun sn => ¬ (sn.recorded_at < cutoff)), sn.id = fk x := by
  constructor
  · intro hmem
    rcases List.mem_filter.mp hmem with ⟨hx, hpred⟩
    have hpred2 : ¬ ((((s.snapshots.filter
        (fun sn => sn.recorded_at < cutoff)).map (·.id)).contains (fk x)) = true) :=
      of_decide_eq_true hpred
    have hnc : ¬ (fk x ∈ (s.snapshots.filter
        (fun sn => sn.recorded_at < cutoff)).map (·.id)) := by
      intro hin
      exact hpred2 (by simpa [List.contains, List.elem_iff] using hin)
    refine ⟨hx, ?_⟩
    rcases hfk x hx with ⟨sn, hsn, hsneq⟩
    by_cases hlt : sn.recorded_at < cutoff
    · exfalso
      exact hnc (List.mem_map.mpr ⟨sn,
        List.mem_filter.mpr ⟨hsn, by simpa using hlt⟩, hsneq⟩)
    · exact ⟨sn, List.mem_filter.mpr ⟨hsn, by simpa using hlt⟩, hsneq⟩
  · rintro ⟨hx, sn, hsnk, hsneq⟩
    rcases List.mem_filter.mp hsnk with ⟨hsn, hkeep⟩
    have hkeep2 : ¬ (sn.recorded_at < cutoff) := by simpa using hkeep
    refine List.mem_filter.mpr ⟨hx, ?_⟩
    have hnc : ¬ (fk x ∈ (s.snapshots.filter
        (fun sn => sn.recorded_at < cutoff)).map (·.id)) := by
      intro hin
      rcases List.mem_map.mp hin with ⟨d, hdmem, hdid⟩
      rcases List.mem_filter.mp hdmem with ⟨hd, hdlt⟩
      have hdlt2 : d.recorded_at < cutoff := by simpa using hdlt
      have hde : d = sn :=
        List.inj_on_of_nodup_map hid hd hsn (hdid.trans hsneq.symm)
      exact hkeep2 (hde ▸ hdlt2)
    simp only [decide_eq_true_eq]
    intro hc
    exact hnc (by simpa [List.contains, List.elem_iff] using hc)

/-- C1: `purgeBefore(cutoff)` (the repository's `delete_older_than`) keeps
exactly the snapshots with `recorded_at ≥ cutoff` and deletes the rest,
returns the number of deleted snapshots, and cascades so that a child
temperature or job row survives exactly when its row survived the purge and
its owning snapshot survived — no orphaned child rows remain. -/
theorem delete_older_than_spec (s : Store) (cutoff : Int)
    (hid : (s.snapshots.map (·.id)).Nodup)
    (hft : ∀ t ∈ s.temps, ∃ sn ∈ s.snapshots, sn.id = t.status_id)
    (hfj : ∀ j ∈ s.jobs, ∃ sn ∈ s.snapshots, sn.id = j.status_id) :
    (∀ sn, sn ∈ (delete_older_than s cutoff).1.snapshots ↔
        sn ∈ s.snapshots ∧ cutoff ≤ sn.recorded_at) ∧
      (delete_older_than s cutoff).2 =
        (s.snapshots.filter (fun sn => sn.recorded_at < cutoff)).length ∧
      (∀ t, t ∈ (delete_older_than s cutoff).1.temps ↔
        t ∈ s.temps ∧ ∃ sn ∈ (delete_older_than s cutoff).1.snapshots,
          sn.id = t.status_id) ∧
      (∀ j, j ∈ (delete_older_than s cutoff).1.jobs ↔
        j ∈ s.jobs ∧ ∃ sn ∈ (delete_older_than s cutoff).1.snapshots,
          sn.id = j.status_id) := by
  refine ⟨?_, rfl, ?_, ?_⟩
  · intro sn
    unfold delete_older_than
    simp only [List.mem_filter, decide_eq_true_eq]
    constructor
    · rintro ⟨h1, h2⟩; exact ⟨h1, not_lt.mp (by simpa using h2)⟩
    · rintro ⟨h1, h2⟩; exact ⟨h1, by simpa using not_lt.mpr h2⟩
  · intro t
    exact cascade_filter_mem s cutoff hid (fun t => t.status_id) hft t
  · intro j
    exact cascade_filter_mem s cutoff hid (fun j => j.status_id) hfj j

/-- An old snapshot (before the retention cutoff used below). -/
def snapOld : StatusHistoryRow :=
  { id := 1
    state := "idle"
    message := none
    uptime_seconds := none
    recorded_at := 100
    active_job_id := none
    active_job_name := none
    active_job_progress := none
    active_job_status := none
    active_job_started_at := none
    active_job_estimated_completion := none
    created_at := 100 }

/-- A recent snapshot (after the retention cutoff used below). -/
def snapNew : StatusHistoryRow := { snapOld with id := 2, recorded_at := 900, created_at := 900 }

/-- A store with one stale and one fresh snapshot, each owning one
temperature reading and one job observation. -/
def storeC1 : Store :=
  { snapshots := [snapOld, snapNew]
    temps :=
      [{ id := 1, status_id := 1, component := "hotend", actual := 200,
         target := none, timestamp := 100, created_at := 100 },
       { id := 2, status_id := 2, component := "hotend", actual := 210,
         target := none, timestamp := 900, created_at := 900 }]
    jobs :=
      [{ id := 1, status_id := 1, job_identifier := "job-1", name := "J",
         progress := 1/2, status_value := "running", started_at := none,
         estimated_completion := none, is_active := true, created_at := 100 },
       { id := 2, status_id := 2, job_identifier := "job-1", name := "J",
         progress := 1, status_value := "completed", started_at := none,
         estimated_completion := none, is_active := false, created_at := 900 }] }

/-- C1 witness: purging `storeC1` at cutoff 500 deletes exactly the stale
snapshot (count 1) and keeps the fresh one, by the purge theorem applied at
that concrete store. -/
theorem delete_older_than_spec_witness :
    (delete_older_than storeC1 500).2 = 1 ∧
      (snapOld ∈ (delete_older_than storeC1 500).1.snapshots ↔
        snapOld ∈ storeC1.snapshots ∧ 500 ≤ snapOld.recorded_at) := by
  have h := delete_older_than_spec storeC1 500 (by decide) (by decide) (by decide)
  exact ⟨h.2.1.trans (by decide), h.1 snapOld⟩

/-! ### C7 -/

/-- C7: every result of `list_status_history` is strictly ordered by
`(recorded_at DESC, id DESC)` (given distinct primary keys), and the same
total order determines the overview's "latest" snapshot: for any positive
limit and zero offset, the head of the listing is `latestSnapshot`. -/
theorem list_status_history_strictly_ordered (s : Store) (limit offset : Nat)
    (hid : (s.snapshots.map (·.id)).Nodup) :
    List.Pairwise snapLT (list_status_history s limit offset) ∧
      (1 ≤ limit → latestSnapshot s = (list_status_history s limit 0).head?) := by
  constructor
  · have hsorted : List.Sorted snapLE (List.insertionSort snapLE s.snapshots) :=
      List.sorted_insertionSort snapLE s.snapshots
    have hsub : List.Sublist (list_status_history s limit offset)
        (List.insertionSort snapLE s.snapshots) :=
      (List.take_sublist _ _).trans (List.drop_sublist _ _)
    have hP1 : List.Pairwise snapLE (list_status_history s limit offset) :=
      List.Pairwise.sublist hsub hsorted
    have hperm : List.Perm (List.insertionSort snapLE s.snapshots) s.snapshots :=
      List.perm_insertionSort snapLE s.snapshots
    have hnd1 : ((List.insertionSort snapLE s.snapshots).map (·.id)).Nodup :=
      ((hperm.map (·.id)).nodup_iff).mpr hid
    have hnd2 : ((list_status_history s limit offset).map (·.id)).Nodup :=
      List.Nodup.sublist (hsub.map (·.id)) hnd1
    have hPne : List.Pairwise (fun a b : StatusHistoryRow => ¬ a.id = b.id)
        (list_status_history s limit offset) :=
      List.pairwise_map.mp hnd2
    exact (hP1.and hPne).imp
      (fun h => by
        rcases h with ⟨h1, h2⟩
        unfold snapLE at h1
        unfold snapLT
        omega)
  · intro hl
    unfold list_status_history latestSnapshot
    rw [List.drop_zero, head?_take_of_pos hl]

/-- C7 witness: the ordering theorem applied to the concrete two-snapshot
store with the default limit 100 and offset 0. -/
theorem list_status_history_strictly_ordered_witness :
    List.Pairwise snapLT (list_status_history storeC1 100 0) ∧
      (1 ≤ 100 → latestSnapshot storeC1 = (list_status_history storeC1 100 0).head?) :=
  list_status_history_strictly_ordered storeC1 100 0 (by decide)

/-! ### C6 -/

theorem pairwise_filterMap_of_pairwise {α β : Type} (f : α → Option β)
    {R : α → α → Prop} {S : β → β → Prop}
    (h : ∀ a b x y, R a b → f a = some x → f b = some y → S x y)
    {l : List α} (hl : List.Pairwise R l) : List.Pairwise S (l.filterMap f) := by
  induction l with
  | nil => simp
  | cons a l ih =>
    rcases List.pairwise_cons.mp hl with ⟨ha, hl2⟩
    cases hfa : f a with
    | none => simpa [List.filterMap_cons, hfa] using ih hl2
    | some x =>
      rw [List.filterMap_cons, hfa]
      refine List.pairwise_cons.mpr ⟨?_, ih hl2⟩
      intro y hy
      rcases List.mem_filterMap.mp hy with ⟨b, hb, hfb⟩
      exact h a b x y (ha b hb) hfa hfb

theorem length_filterMap_of_isSome {α β : Type} (f : α → Option β)
    {l : List α} (h : ∀ a ∈ l, (f a).isSome) :
    (l.filterMap f).length = l.length := by
  induction l with
  | nil => rfl
  | cons a l ih =>
    have ha := h a (List.mem_cons_self a l)
    cases hfa : f a with
    | none => rw [hfa] at ha; simp at ha
    | some x =>
      rw [List.filterMap_cons, hfa, List.length_cons,
        ih (fun a2 ha2 => h a2 (List.mem_cons_of_mem a ha2))]
      rfl

theorem reverse_take_suffix {α : Type} (l : List α) (n : Nat) :
    List.IsSuffix ((l.take n).reverse) l.reverse :=
  (List.reverse_suffix).mpr (List.take_prefix n l)

theorem latestSnapshot_none {s : Store} (h : latestSnapshot s = none) :
    s.snapshots = [] := by
  unfold latestSnapshot at h
  have hnil : List.insertionSort snapLE s.snapshots = [] := by
    cases hs : List.insertionSort snapLE s.snapshots with
    | nil => rfl
    | cons a t => rw [hs] at h; simp at h
  have hperm : List.Perm (List.insertionSort snapLE s.snapshots) s.snapshots :=
    List.perm_insertionSort snapLE s.snapshots
  rw [hnil] at hperm
  exact hperm.symm.eq_nil

theorem progressPair_isSome {s : Store} {r : StatusHistoryRow}
    (h : r ∈ progressRows s) : (progressPair r).isSome := by
  rcases List.mem_filter.mp h with ⟨_, hp⟩
  unfold progressPair
  cases hps : r.active_job_progress with
  | none => rw [hps] at hp; cases hp
  | some v => rfl

theorem progressSeries_chron (s : Store) (pp : Nat) :
    List.Pairwise (fun a b : Int × Rat => a.1 ≤ b.1) (progressSeries s pp) := by
  unfold progressSeries
  have hsorted : List.Sorted snapLE (List.insertionSort snapLE (progressRows s)) :=
    List.sorted_insertionSort snapLE (progressRows s)
  have htake : List.Pairwise snapLE
      ((List.insertionSort snapLE (progressRows s)).take pp) :=
    List.Pairwise.sublist (List.take_sublist _ _) hsorted
  have hrev : List.Pairwise (fun a b : StatusHistoryRow => snapLE b a)
      (((List.insertionSort snapLE (progressRows s)).take pp).reverse) :=
    (List.pairwise_reverse).mpr htake
  refine pairwise_filterMap_of_pairwise progressPair ?_ hrev
  intro a b x y hab hfa hfb
  unfold progressPair at hfa hfb
  cases hpa : a.active_job_progress with
  | none => rw [hpa] at hfa; cases hfa
  | some va =>
    cases hpb : b.active_job_progress with
    | none => rw [hpb] at hfb; cases hfb
    | some vb =>
      rw [hpa] at hfa
      rw [hpb] at hfb
      simp only [Option.map_some', Option.some.injEq] at hfa hfb
      rw [← hfa, ← hfb]
      unfold snapLE at hab
      simp only
      omega

theorem progressSeries_length (s : Store) (pp : Nat) :
    (progressSeries s pp).length = min pp (fullProgressSeries s).length := by
  unfold progressSeries fullProgressSeries
  rw [length_filterMap_of_isSome progressPair, length_filterMap_of_isSome progressPair]
  · rw [List.length_reverse, List.length_reverse, List.length_take,
      ((List.perm_insertionSort snapLE (progressRows s)).length_eq)]
  · intro a ha
    rw [List.mem_reverse] at ha
    exact progressPair_isSome
      ((List.mem_insertionSort snapLE).mp ha)
  · intro a ha
    rw [List.mem_reverse] at ha
    have hmem := (List.take_sublist pp _).mem ha
    exact progressPair_isSome ((List.mem_insertionSort snapLE).mp hmem)

theorem progressSeries_suffix (s : Store) (pp : Nat) :
    List.IsSuffix (progressSeries s pp) (fullProgressSeries s) :=
  filterMap_suffix progressPair
    (reverse_take_suffix (List.insertionSort snapLE (progressRows s)) pp)

/-- Scenario-D status payload: an active job at a given progress. -/
def mkStatusD (p : Rat) : PrinterStatus :=
  { state := "printing"
    message := none
    uptime_seconds := none
    active_job := some
      { id := "job-1", name := "Job One", progress := p, status := "running",
        started_at := none, estimated_completion := none }
    queued_jobs := []
    temperatures := [] }

/-- Scenario-D store: three appends with active-job progress 0.1, 0.4, 0.7
at times 100 < 200 < 300. -/
def storeD : Store :=
  (create_status_history
    (create_status_history
      (create_status_history emptyStore (mkStatusD (1/10)) 100 (some 100)).1
      (mkStatusD (2/5)) 200 (some 200)).1
    (mkStatusD (7/10)) 300 (some 300)).1

/-- C6: `overview` clamps `progress_points` to `[1, 200]`; its progress
history is chronologically ordered (oldest first), is a trailing suffix of
the full chronological series of progress-bearing snapshots, has exactly
`min(clamped, total)` entries; and on the Scenario-D store (three appends
with progress 0.1, 0.4, 0.7) `overview(progress_points := 2)` yields the
series [0.4, 0.7] in chronological order. -/
theorem overview_progress_spec (s : Store) (p : Int) :
    (1 ≤ clampProgressPoints p ∧ clampProgressPoints p ≤ 200) ∧
      List.Pairwise (fun a b : Int × Rat => a.1 ≤ b.1)
        (get_dashboard_overview s p).progress_history ∧
      (get_dashboard_overview s p).progress_history.length =
        min (clampProgressPoints p).toNat (fullProgressSeries s).length ∧
      List.IsSuffix (get_dashboard_overview s p).progress_history
        (fullProgressSeries s) ∧
      (get_dashboard_overview storeD 2).progress_history =
        [(200, (2/5 : Rat)), (300, (7/10 : Rat))] := by
  refine ⟨⟨?_, ?_⟩, ?_⟩
  · unfold clampProgressPoints; omega
  · unfold clampProgressPoints; omega
  have hhist : (get_dashboard_overview s p).progress_history = [] ∨
      (get_dashboard_overview s p).progress_history =
        progressSeries s (clampProgressPoints p).toNat := by
    unfold get_dashboard_overview
    cases hls : latestSnapshot s with
    | none => exact Or.inl rfl
    | some latest => exact Or.inr rfl
  have hfullnil : latestSnapshot s = none → fullProgressSeries s = [] := by
    intro hls
    have hsnil := latestSnapshot_none hls
    unfold fullProgressSeries progressRows
    rw [hsnil]
    rfl
  refine ⟨?_, ?_, ?_, by rfl⟩
  · rcases hhist with h | h <;> rw [h]
    · simp
    · exact progressSeries_chron s (clampProgressPoints p).toNat
  · unfold get_dashboard_overview
    cases hls : latestSnapshot s with
    | none =>
      rw [hfullnil hls]
      simp [defaultOverview]
    | some latest =>
      exact progressSeries_length s (clampProgressPoints p).toNat
  · rcases hhist with h | h <;> rw [h]
    · exact List.nil_suffix
    · exact progressSeries_suffix s (clampProgressPoints p).toNat

/-! ### C4 -/

theorem temperature_components_eq (s : Store) :
    (get_temperature_summary s).components =
      List.insertionSort compLE ((latestTempRows s).map (fun r =>
        { component := r.component
          latest := { actual := r.actual, target := r.target, timestamp := r.timestamp }
          statistics := List.lookup r.component (statsAssoc s) })) := rfl

theorem tempKey (s : Store) (c : String) (x : TemperatureHistoryRow)
    (h : (List.insertionSort tempLE (tempRowsFor s c)).head? = some x) :
    x.component = c := by
  have hmem := (insertionSort_head_spec tempLE h).1
  rcases List.mem_filter.mp hmem with ⟨_, hc⟩
  simpa using hc

theorem tempSome (s : Store) :
    ∀ c ∈ tempComponents s,
      ((List.insertionSort tempLE (tempRowsFor s c)).head?).isSome := by
  intro c hc
  rw [List.head?_isSome]
  intro hnil
  have hcm : c ∈ s.temps.map (·.component) := List.mem_dedup.mp hc
  rcases List.mem_map.mp hcm with ⟨r, hr, hrc⟩
  have hrm : r ∈ tempRowsFor s c :=
    List.mem_filter.mpr ⟨hr, by simpa using hrc⟩
  have hrs : r ∈ List.insertionSort tempLE (tempRowsFor s c) :=
    (List.mem_insertionSort tempLE).mpr hrm
  rw [hnil] at hrs
  cases hrs

/-- Scenario-A status payload: one hotend reading of the given value. -/
def mkStatusA (v : Rat) (t : Int) : PrinterStatus :=
  { state := "idle"
    message := none
    uptime_seconds := none
    active_job := none
    queued_jobs := []
    temperatures := [{ component := "hotend", actual := v, target := none, timestamp := t }] }

/-- Scenario-A store: three appends with hotend actual values 200, 205, 210
at times 100 < 200 < 300. -/
def storeA : Store :=
  (create_status_history
    (create_status_history
      (create_status_history emptyStore (mkStatusA 200 100) 100 (some 100)).1
      (mkStatusA 205 200) 200 (some 200)).1
    (mkStatusA 210 300) 300 (some 300)).1

/-- C4: per distinct recorded component, `get_temperature_summary` returns
exactly one entry, sorted by component name; each entry's latest block is
the reading with maximal `(timestamp, id)` among all readings of that
component; each entry's statistics are the sample count, minimum, maximum
and average of `actual` over all historical readings of that component; and
on the Scenario-A store (hotend 200, 205, 210) the summary reports hotend
latest 210, 3 samples, min 200, max 210. -/
theorem get_temperature_summary_spec (s : Store) :
    List.Perm ((get_temperature_summary s).components.map (·.component))
      ((s.temps.map (·.component)).dedup) ∧
      List.Pairwise compLE (get_temperature_summary s).components ∧
      (∀ e ∈ (get_temperature_summary s).components,
        (∃ r ∈ s.temps, r.component = e.component ∧
          e.latest = { actual := r.actual, target := r.target, timestamp := r.timestamp } ∧
          ∀ r2 ∈ s.temps, r2.component = e.component → tempLE r r2) ∧
        e.statistics = some
          { samples := (tempRowsFor s e.component).length
            min_actual := ((tempRowsFor s e.component).map (·.actual)).min?
            max_actual := ((tempRowsFor s e.component).map (·.actual)).max?
            avg_actual :=
              if (tempRowsFor s e.component).length = 0 then none
              else some (((tempRowsFor s e.component).map (·.actual)).sum /
                ((tempRowsFor s e.component).length : Rat)) }) ∧
      (get_temperature_summary storeA).components.map
          (fun e => (e.component, e.latest.actual,
            e.statistics.map (fun st => st.samples),
            e.statistics.bind (fun st => st.min_actual),
            e.statistics.bind (fun st => st.max_actual))) =
        [("hotend", (210 : Rat), some 3, some (200 : Rat), some (210 : Rat))] := by
  have hkeyed : ∀ c x, (List.insertionSort tempLE (tempRowsFor s c)).head? = some x →
      x.component = c := fun c x h => tempKey s c x h
  refine ⟨?_, ?_, ?_, by rfl⟩
  · rw [temperature_components_eq]
    have hperm := (List.perm_insertionSort compLE
      ((latestTempRows s).map (fun r =>
        ({ component := r.component
           latest := { actual := r.actual, target := r.target, timestamp := r.timestamp }
           statistics := List.lookup r.component (statsAssoc s) } : ComponentSummary)))).map
      (fun e : ComponentSummary => e.component)
    refine hperm.trans ?_
    rw [List.map_map]
    have heq : List.map
        ((fun e : ComponentSummary => e.component) ∘ (fun r =>
          ({ component := r.component
             latest := { actual := r.actual, target := r.target, timestamp := r.timestamp }
             statistics := List.lookup r.component (statsAssoc s) } : ComponentSummary)))
        (latestTempRows s) = List.map (fun r => r.component) (latestTempRows s) := rfl
    rw [heq]
    unfold latestTempRows
    rw [map_key_filterMap_eq (fun r => r.component) _ hkeyed (tempSome s)]
    exact List.Perm.refl _
  · rw [temperature_components_eq]
    exact List.sorted_insertionSort compLE _
  · intro e he
    rw [temperature_components_eq] at he
    have he2 := (List.mem_insertionSort compLE).mp he
    rcases List.mem_map.mp he2 with ⟨r, hr, he3⟩
    rcases List.mem_filterMap.mp hr with ⟨c, hc, hgc⟩
    have hmax := insertionSort_head_spec tempLE hgc
    have hkey : r.component = c := tempKey s c r hgc
    subst he3
    constructor
    · refine ⟨r, (List.mem_filter.mp hmax.1).1, rfl, rfl, ?_⟩
      intro r2 hr2 hcomp
      refine hmax.2 r2 (List.mem_filter.mpr ⟨hr2, ?_⟩)
      simp only [beq_iff_eq]
      exact hcomp.trans hkey
    · have hmem : r.component ∈ List.insertionSort (fun a b : String => a ≤ b)
          (tempComponents s) :=
        (List.mem_insertionSort _).mpr (hkey ▸ hc)
      exact lookup_map_pair (fun c => statsFor (tempRowsFor s c)) hmem

/-! ### C3 -/

theorem nodup_map_filterMap_pres {α β γ : Type} [DecidableEq γ]
    (g : α → Option β) (k1 : α → γ) (k2 : β → γ)
    (hg : ∀ a x, g a = some x → k2 x = k1 a) {l : List α}
    (h : (l.map k1).Nodup) : ((l.filterMap g).map k2).Nodup := by
  induction l with
  | nil => simp
  | cons a l ih =>
    rw [List.map_cons] at h
    rcases List.nodup_cons.mp h with ⟨ha, hl⟩
    cases hga : g a with
    | none => simpa [List.filterMap_cons, hga] using ih hl
    | some x =>
      rw [List.filterMap_cons, hga]
      simp only [List.map_cons, List.nodup_cons]
      refine ⟨?_, ih hl⟩
      rw [hg a x hga]
      intro hmem
      rcases List.mem_map.mp hmem with ⟨y, hy, hky⟩
      rcases List.mem_filterMap.mp hy with ⟨a2, ha2, hga2⟩
      rw [hg a2 y hga2] at hky
      exact ha (hky ▸ List.mem_map_of_mem k1 ha2)

theorem jobKey (s : Store) (k : String) (x : JoinedJob)
    (h : (List.insertionSort jjLE ((jobsWindow s).filter
        (fun r => r.job_identifier == k))).head? = some x) :
    x.job_identifier = k ∧ x ∈ jobsWindow s := by
  have hmem := (insertionSort_head_spec jjLE h).1
  rcases List.mem_filter.mp hmem with ⟨hw, hk⟩
  exact ⟨by simpa using hk, hw⟩

theorem latestJobRows_identifier_nodup (s : Store) :
    ((latestJobRows s).map (·.job_identifier)).Nodup := by
  unfold latestJobRows
  exact nodup_map_key_filterMap (fun r : JoinedJob => r.job_identifier) _
    (fun c x h => (jobKey s c x h).1)
    (List.nodup_dedup _)

theorem jobsWindow_id_nodup (s : Store)
    (hjid : (s.jobs.map (·.id)).Nodup) :
    ((jobsWindow s).map (·.id)).Nodup := by
  unfold jobsWindow
  refine nodup_map_filterMap_pres _ (fun j : JobHistoryRow => j.id)
    (fun r : JoinedJob => r.id) ?_ hjid
  intro j x hx
  cases hf : s.snapshots.find? (fun sn => sn.id == j.status_id) with
  | none => rw [hf] at hx; cases hx
  | some sn =>
    rw [hf] at hx
    simp only [Option.map_some', Option.some.injEq] at hx
    rw [← hx]

theorem latestJobRows_id_nodup (s : Store)
    (hjid : (s.jobs.map (·.id)).Nodup) :
    ((latestJobRows s).map (·.id)).Nodup := by
  have hwin := jobsWindow_id_nodup s hjid
  have hidents := latestJobRows_identifier_nodup s
  have hne : List.Pairwise (fun a b : JoinedJob => a.job_identifier ≠ b.job_identifier)
      (latestJobRows s) := List.pairwise_map.mp hidents
  have hmemw : ∀ x ∈ latestJobRows s, x ∈ jobsWindow s := by
    intro x hx
    rcases List.mem_filterMap.mp hx with ⟨k, _, hk⟩
    exact (jobKey s k x hk).2
  have hPne : List.Pairwise (fun a b : JoinedJob => ¬ a.id = b.id)
      (latestJobRows s) := by
    refine hne.imp_of_mem ?_
    intro a b ha hb hab hid
    exact hab (by
      have heq := List.inj_on_of_nodup_map hwin (hmemw a ha) (hmemw b hb) hid
      rw [heq])
  exact List.pairwise_map.mpr hPne

/-- C3: `get_job_metrics` clamps its limit to `[1, 50]`; its `recent` list
is the view of `recentJobRows`, which carries no duplicate job identifier,
is strictly ordered by owning-snapshot `recorded_at DESC` then observation
`id DESC`, and holds at most the clamped number of entries, each being the
window-maximal (most recent) observation of its identifier; and the status
histogram is computed over the deduplicated latest-per-identifier rows, one
count per status value. -/
theorem get_job_metrics_spec (s : Store) (limit : Int)
    (hjid : (s.jobs.map (·.id)).Nodup) :
    (1 ≤ clampJobLimit limit ∧ clampJobLimit limit ≤ 50) ∧
      (get_job_metrics s limit).recent = (recentJobRows s limit).map jobMetricsView ∧
      ((recentJobRows s limit).map (·.job_identifier)).Nodup ∧
      List.Pairwise jjLT (recentJobRows s limit) ∧
      (recentJobRows s limit).length ≤ (clampJobLimit limit).toNat ∧
      (∀ e ∈ recentJobRows s limit, e ∈ jobsWindow s ∧
        ∀ r ∈ jobsWindow s, r.job_identifier = e.job_identifier → jjLE e r) ∧
      (get_job_metrics s limit).status_totals = statusTotals (latestJobRows s) ∧
      (∀ v ∈ (latestJobRows s).map (·.status_value),
        List.lookup v (statusTotals (latestJobRows s)) =
          some ((latestJobRows s).countP (fun r => r.status_value == v))) := by
  have hsubsort : List.Sublist (recentJobRows s limit)
      (List.insertionSort jjLE (latestJobRows s)) := List.take_sublist _ _
  have hperm : List.Perm (List.insertionSort jjLE (latestJobRows s))
      (latestJobRows s) := List.perm_insertionSort jjLE (latestJobRows s)
  refine ⟨⟨?_, ?_⟩, rfl, ?_, ?_, List.length_take_le _ _, ?_, rfl, ?_⟩
  · unfold clampJobLimit; omega
  · unfold clampJobLimit; omega
  · have h1 : ((List.insertionSort jjLE (latestJobRows s)).map
        (·.job_identifier)).Nodup :=
      ((hperm.map (·.job_identifier)).nodup_iff).mpr
        (latestJobRows_identifier_nodup s)
    exact List.Nodup.sublist (hsubsort.map (·.job_identifier)) h1
  · have hP1 : List.Pairwise jjLE (recentJobRows s limit) :=
      List.Pairwise.sublist hsubsort (List.sorted_insertionSort jjLE _)
    have hnd : ((recentJobRows s limit).map (·.id)).Nodup := by
      have h1 : ((List.insertionSort jjLE (latestJobRows s)).map (·.id)).Nodup :=
        ((hperm.map (·.id)).nodup_iff).mpr (latestJobRows_id_nodup s hjid)
      exact List.Nodup.sublist (hsubsort.map (·.id)) h1
    have hPne : List.Pairwise (fun a b : JoinedJob => ¬ a.id = b.id)
        (recentJobRows s limit) := List.pairwise_map.mp hnd
    exact (hP1.and hPne).imp
      (fun h => by
        rcases h with ⟨h1, h2⟩
        unfold jjLE at h1
        unfold jjLT
        omega)
  · intro e he
    have he2 : e ∈ latestJobRows s := hperm.mem_iff.mp (hsubsort.mem he)
    rcases List.mem_filterMap.mp he2 with ⟨k, _, hk⟩
    have hkey := jobKey s k e hk
    refine ⟨hkey.2, ?_⟩
    intro r hr hrid
    have hspec := insertionSort_head_spec jjLE hk
    refine hspec.2 r (List.mem_filter.mpr ⟨hr, ?_⟩)
    simp only [beq_iff_eq]
    exact hrid.trans hkey.1
  · intro v hv
    unfold statusTotals
    exact lookup_map_pair
      (fun v => (latestJobRows s).countP (fun r => r.status_value == v))
      (List.mem_dedup.mpr hv)

/-- C3 witness: the job-metrics theorem applied to the concrete store with
two observations of one identifier and the default limit 5. -/
theorem get_job_metrics_spec_witness :
    ((recentJobRows storeC1 5).map (·.job_identifier)).Nodup ∧
      (1 ≤ clampJobLimit 5 ∧ clampJobLimit 5 ≤ 50) := by
  have h := get_job_metrics_spec storeC1 5 (by decide)
  exact ⟨h.2.2.1, h.1⟩

/-! ### C10 -/

theorem foldr_max_ge {l : List Nat} {x : Nat} (hx : x ∈ l) :
    x ≤ l.foldr max 0 := by
  induction l with
  | nil => cases hx
  | cons a t ih =>
    rcases List.mem_cons.mp hx with h | h
    · subst h; exact le_max_left _ _
    · exact (ih h).trans (le_max_right _ _)

theorem jobs_status_id_fresh (s : Store)
    (hfj : ∀ j ∈ s.jobs, ∃ sn ∈ s.snapshots, sn.id = j.status_id) :
    ∀ j ∈ s.jobs, j.status_id ≠ nextSnapshotId s := by
  intro j hj
  rcases hfj j hj with ⟨sn, hsn, hid⟩
  have hle : sn.id ≤ (s.snapshots.map (·.id)).foldr max 0 :=
    foldr_max_ge (List.mem_map_of_mem (·.id) hsn)
  unfold nextSnapshotId
  omega

theorem build_job_entities_status_id (aj : Option JobSummary)
    (qs : List JobSummary) (sid base : Nat) (now : Int) :
    ∀ j ∈ _build_job_entities aj qs sid base now, j.status_id = sid := by
  intro j hj
  cases aj with
  | some a =>
    simp only [_build_job_entities] at hj
    rcases List.mem_cons.mp hj with h | h
    · subst h; rfl
    · rcases List.mem_map.mp h with ⟨p, _, hp⟩
      rw [← hp]; rfl
  | none =>
    simp only [_build_job_entities] at hj
    rcases List.mem_map.mp hj with ⟨p, _, hp⟩
    rw [← hp]; rfl

theorem queued_rows_inactive (qs : List JobSummary) (sid : Nat)
    (now : Int) (f : Nat → Nat) :
    ∀ j ∈ qs.enum.map (fun p => mkJobRow p.2 false sid (f p.1) now),
      j.is_active = false := by
  intro j hj
  rcases List.mem_map.mp hj with ⟨p, _, hp⟩
  rw [← hp]; rfl

theorem jobsOf_create (s : Store) (status : PrinterStatus) (now : Int)
    (rec : Option Int)
    (hfj : ∀ j ∈ s.jobs, ∃ sn ∈ s.snapshots, sn.id = j.status_id) :
    jobsOf (create_status_history s status now rec).1
        (create_status_history s status now rec).2.id =
      _build_job_entities status.active_job status.queued_jobs
        (nextSnapshotId s) (nextJobId s) now := by
  have hfresh := jobs_status_id_fresh s hfj
  show (s.jobs ++ _build_job_entities status.active_job status.queued_jobs
      (nextSnapshotId s) (nextJobId s) now).filter
      (fun j => j.status_id == nextSnapshotId s) = _
  rw [List.filter_append]
  rw [List.filter_eq_nil_iff.mpr (fun j hj => by simpa using hfresh j hj),
    List.filter_eq_self.mpr (fun j hj => by
      simpa using build_job_entities_status_id status.active_job
        status.queued_jobs (nextSnapshotId s) (nextJobId s) now j hj),
    List.nil_append]

/-- C10: a snapshot persisted by `create_status_history` owns exactly one
active-flagged job observation when the input carried an active job and
none otherwise; when active, that unique observation's fields and the
snapshot's denormalized active-job columns both equal the input active
job's fields; when absent, all denormalized active-job columns are null. -/
theorem create_status_history_active_invariant (s : Store)
    (status : PrinterStatus) (now : Int) (rec : Option Int)
    (hfj : ∀ j ∈ s.jobs, ∃ sn ∈ s.snapshots, sn.id = j.status_id) :
    ((jobsOf (create_status_history s status now rec).1
        (create_status_history s status now rec).2.id).countP (·.is_active)) =
      (if status.active_job.isSome then 1 else 0) ∧
      (∀ aj, status.active_job = some aj →
        ∃ j, (jobsOf (create_status_history s status now rec).1
            (create_status_history s status now rec).2.id).filter (·.is_active) = [j] ∧
          j.job_identifier = aj.id ∧ j.name = aj.name ∧ j.progress = aj.progress ∧
          j.status_value = aj.status ∧ j.started_at = aj.started_at ∧
          j.estimated_completion = aj.estimated_completion ∧
          (create_status_history s status now rec).2.active_job_id = some aj.id ∧
          (create_status_history s status now rec).2.active_job_name = some aj.name ∧
          (create_status_history s status now rec).2.active_job_progress = some aj.progress ∧
          (create_status_history s status now rec).2.active_job_status = some aj.status ∧
          (create_status_history s status now rec).2.active_job_started_at = aj.started_at ∧
          (create_status_history s status now rec).2.active_job_estimated_completion =
            aj.estimated_completion) ∧
      (status.active_job = none →
        (create_status_history s status now rec).2.active_job_id = none ∧
        (create_status_history s status now rec).2.active_job_name = none ∧
        (create_status_history s status now rec).2.active_job_progress = none ∧
        (create_status_history s status now rec).2.active_job_status = none ∧
        (create_status_history s status now rec).2.active_job_started_at = none ∧
        (create_status_history s status now rec).2.active_job_estimated_completion = none) := by
  rw [jobsOf_create s status now rec hfj]
  refine ⟨?_, ?_, ?_⟩
  · cases haj : status.active_job with
    | none =>
      simp only [_build_job_entities, haj, Option.isSome_none, if_neg Bool.false_ne_true]
      exact List.countP_eq_zero.mpr
        (fun j hj => by simp [queued_rows_inactive _ _ _ _ j hj])
    | some aj =>
      simp only [_build_job_entities, haj, Option.isSome_some, if_pos rfl]
      rw [List.countP_cons]
      rw [List.countP_eq_zero.mpr
        (fun j hj => by simp [queued_rows_inactive _ _ _ _ j hj])]
      rfl
  · intro aj haj
    refine ⟨mkJobRow aj true (nextSnapshotId s) (nextJobId s) now, ?_,
      rfl, rfl, rfl, rfl, rfl, rfl, ?_, ?_, ?_, ?_, ?_, ?_⟩
    · simp only [_build_job_entities, haj, List.filter_cons]
      rw [if_pos (show (mkJobRow aj true (nextSnapshotId s) (nextJobId s)
        now).is_active = true from rfl)]
      rw [List.filter_eq_nil_iff.mpr
        (fun j hj => by simp [queued_rows_inactive _ _ _ _ j hj])]
    all_goals show (_ : Option _) = _
    all_goals simp [create_status_history, haj]
  · intro haj
    refine ⟨?_, ?_, ?_, ?_, ?_, ?_⟩ <;> simp [create_status_history, haj]

/-- Input status with an active and a queued job, for the C10 witness. -/
def statusC10 : PrinterStatus :=
  { state := "printing"
    message := none
    uptime_seconds := some 5
    active_job := some
      { id := "job-1", name := "Cube", progress := 1/2, status := "running",
        started_at := some 50, estimated_completion := some 150 }
    queued_jobs :=
      [{ id := "job-2", name := "Spare", progress := 0, status := "queued",
         started_at := none, estimated_completion := none }]
    temperatures := [] }

/-- C10 witness: the invariant theorem applied to an append of a status with
one active and one queued job onto the empty store. -/
theorem create_status_history_active_invariant_witness :
    ((jobsOf (create_status_history emptyStore statusC10 100 (some 100)).1
        (create_status_history emptyStore statusC10 100 (some 100)).2.id).countP
        (·.is_active)) = (if statusC10.active_job.isSome then 1 else 0) :=
  (create_status_history_active_invariant emptyStore statusC10 100 (some 100)
    (by decide)).1

end KlipperIWC
